import Mathlib

/-!
Verification of the Home Depot search scraper (`src/streamlit_app.py`).

The development shallowly embeds the scraping pipeline:
* per-item normalization (`processItem`, source lines 93–115),
* the page-fetch/extract/advance loop (`runLoop`, source lines 51–132),
* the post-run deduplication partition (`dedupPartition`, source lines 158–161).

Python dictionaries of uncertain shape are modelled by structures of
`Option` fields (`none` = key absent or JSON null); Python truthiness on
prices and strings is modelled explicitly; exceptions are modelled as
`Except` values or dedicated stop reasons.
-/

/-- `item.pricing` sub-dictionary: `originalPrice.price` and
`specialPrice.price`, each possibly absent (`.get` chains, lines 99–100). -/
structure Pricing where
  originalPrice : Option ℚ
  specialPrice : Option ℚ
deriving DecidableEq

/-- One raw product entry `product['item']`.  `images` is
`media.images`: `none` when `media` or `images` is absent (the code then
defaults to `[{}]`), otherwise the list of each image dict's `url` field. -/
structure Item where
  productLabel : Option String
  pricing : Pricing
  url : Option String
  images : Option (List (Option String))
deriving DecidableEq

/-- Normalized product record appended to `all_results` (lines 109–115). -/
structure ProductRecord where
  name : String
  current_price : Option ℚ
  original_price : Option ℚ
  link : String
  image_url : String
deriving DecidableEq

/-- The fixed fallback image of line 114. -/
def placeholderImage : String :=
  "https://placehold.co/100x100/e2e8f0/333333?text=No+Image"

/-- Python truthiness of an optional number: `None`, `0` and `0.0` are falsy. -/
def truthyPrice : Option ℚ → Bool
  | none => false
  | some q => q != 0

/-- Python truthiness of an optional string: `None` and `""` are falsy. -/
def truthyStr : Option String → Bool
  | none => false
  | some s => s != ""

/-- Line 106: `item_data.get('media', {}).get('images', [{}])[0].get('url')`.
With `media`/`images` absent the default `[{}]` makes the value `None`;
with `images` present and empty, `[0]` raises `IndexError`. -/
def rawImageUrl (it : Item) : Except Unit (Option String) :=
  match it.images with
  | none => .ok none
  | some [] => .error ()
  | some (u :: _) => .ok u

/-- Lines 93–115: normalize one raw entry.  `.ok none` means the entry was
discarded by the `name != 'N/A'` test; `.error ()` means an exception
escaped (the empty-`images` `IndexError`). -/
def processItem (it : Item) : Except Unit (Option ProductRecord) :=
  let name := it.productLabel.getD "N/A"
  let original_price := it.pricing.originalPrice
  let special_price := it.pricing.specialPrice
  let current_price := if truthyPrice special_price then special_price else original_price
  let was_price :=
    if truthyPrice special_price && decide (original_price ≠ special_price) then
      original_price
    else none
  let link := "https://www.homedepot.com" ++ it.url.getD "#"
  match rawImageUrl it with
  | .error e => .error e
  | .ok imageRaw =>
    let image_url := if truthyStr imageRaw then imageRaw.getD "" else placeholderImage
    if name ≠ "N/A" then
      .ok (some { name := name, current_price := current_price,
                  original_price := was_price, link := link, image_url := image_url })
    else
      .ok none

/-- Lines 93–115 as iterated over `products_list`: each record is appended
to the accumulated `all_results`; an item-level exception aborts the scan,
keeping the records appended so far (`false` flags the exception). -/
def processProducts : List Item → List ProductRecord → List ProductRecord × Bool
  | [], acc => (acc, true)
  | it :: rest, acc =>
    match processItem it with
    | .error _ => (acc, false)
    | .ok none => processProducts rest acc
    | .ok (some r) => processProducts rest (acc ++ [r])

/-- One element of `contentLayouts` (lines 86–88): a dict's `type` and
`products` fields, or a non-dict element. -/
structure Layout where
  isDict : Bool
  type : Option String
  products : Option (List Item)
deriving DecidableEq

/-- Line 87–88: a layout contributes its products when it is a dict of type
`PRODUCT_POD` whose `products` field is truthy (present and non-empty). -/
def layoutProducts (l : Layout) : List Item :=
  match l.products with
  | none => []
  | some ps =>
    if l.isDict && (l.type == some "PRODUCT_POD") && !ps.isEmpty then ps else []

/-- The parsed `__NEXT_DATA__` JSON as far as the code reads it:
`props.pageProps.search.contentLayouts`, `none` when any key on that
path is missing. -/
structure ScriptJson where
  contentLayouts : Option (List Layout)
deriving DecidableEq

/-- Lines 82–88: collect `products_list` from the parsed JSON.  The guard
on line 84 tests truthiness of `contentLayouts`. -/
def pageProducts (j : ScriptJson) : List Item :=
  match j.contentLayouts with
  | none => []
  | some ls => if ls.isEmpty then [] else ls.flatMap layoutProducts

/-- The `__NEXT_DATA__` script tag body: `json.loads` either raises
(`badJson`) or yields a parsed structure. -/
inductive ScriptContent where
  | badJson
  | parsed (j : ScriptJson)
deriving DecidableEq

/-- What a successfully loaded page offers: the script tag (`none` when
line 78 finds none) and the `href` of the next-page control (`none` when
line 123 raises `NoSuchElementException`). -/
structure PageContent where
  script : Option ScriptContent
  nextHref : Option String
deriving DecidableEq

/-- Outcome of visiting one URL: the wait times out (`TimeoutException`,
line 117), the driver fails outright (any other exception reaching the
outer handler), or the page loads. -/
inductive Fetch where
  | timeout
  | navError
  | loaded (pc : PageContent)
deriving DecidableEq

/-- How the `while True` loop of lines 51–132 stopped. -/
inductive StopReason where
  | timeout
  | navError
  | noScript
  | parseError
  | noProducts
  | processError
  | noNext
  | endOfEnv
deriving DecidableEq

/-- Stops that reach the outer `except Exception` handler of line 134. -/
def StopReason.isError : StopReason → Bool
  | .navError | .parseError | .processError => true
  | _ => false

/-- Stops by a plain `break` on the no-more-data paths (missing script tag,
empty product list, missing next-page control): the run ends as a normal
completion. -/
def StopReason.isDone : StopReason → Bool
  | .noScript | .noProducts | .noNext => true
  | _ => false

/-- Result of a run: the returned `all_results`, the final `current_page`,
the politeness delays slept (line 128), and how the loop stopped. -/
structure RunResult where
  records : List ProductRecord
  finalPage : ℕ
  delays : List ℚ
  stop : StopReason
deriving DecidableEq

/-- Lines 122–128: look for the next-page control; if present, navigate to
its `href` and sleep `time.sleep(1)`; otherwise `NoSuchElementException`. -/
inductive AdvanceOutcome where
  | navigate (href : String) (delaySeconds : ℚ)
  | lastPage
deriving DecidableEq

/-- The advancing step of lines 122–132. -/
def advanceStep (pc : PageContent) : AdvanceOutcome :=
  match pc.nextHref with
  | some href => .navigate href 1
  | none => .lastPage

/-- The `while True` loop of lines 51–132, driven by the sequence of fetch
outcomes the site serves (one per visited URL).  `page` is `current_page`
(starts at 1, line 48) and `acc` is `all_results`.  Every exception is
confined: the run always returns `acc` as accumulated so far
(`return all_results` after the `finally`, line 140). -/
def runLoop : List Fetch → ℕ → List ProductRecord → List ℚ → RunResult
  | [], page, acc, ds => ⟨acc, page, ds, .endOfEnv⟩
  | f :: rest, page, acc, ds =>
    match f with
    | .timeout => ⟨acc, page, ds, .timeout⟩
    | .navError => ⟨acc, page, ds, .navError⟩
    | .loaded pc =>
      match pc.script with
      | none => ⟨acc, page, ds, .noScript⟩
      | some .badJson => ⟨acc, page, ds, .parseError⟩
      | some (.parsed j) =>
        let items := pageProducts j
        if items.isEmpty then ⟨acc, page, ds, .noProducts⟩
        else
          match processProducts items acc with
          | (acc2, false) => ⟨acc2, page, ds, .processError⟩
          | (acc2, true) =>
            match advanceStep pc with
            | .lastPage => ⟨acc2, page, ds, .noNext⟩
            | .navigate _ d => runLoop rest (page + 1) acc2 (ds ++ [d])

/-- Lines 16–140: a whole call of the scraper, returning `all_results`. -/
def scrape_homedepot_with_selenium (env : List Fetch) : List ProductRecord :=
  (runLoop env 1 [] []).records

/-- Lines 158–161 (pandas `duplicated(subset=['name'], keep='first')`):
split the indexed rows of `all_results` into first occurrences per name
(`unique_df`) and subsequent occurrences (`duplicate_df`).  `seen` is the
set of names of rows already scanned. -/
def dedupAux : List (ℕ × ProductRecord) → List String → List (ℕ × ProductRecord) × List (ℕ × ProductRecord)
  | [], _ => ([], [])
  | r :: rest, seen =>
    let p := dedupAux rest (r.2.name :: seen)
    if r.2.name ∈ seen then (p.1, r :: p.2) else (r :: p.1, p.2)

/-- The deduplication partition of the accumulated records, rows tagged
with their dataframe index. -/
def dedupPartition (l : List ProductRecord) : List (ℕ × ProductRecord) × List (ℕ × ProductRecord) :=
  dedupAux l.enum []

/-- An entry whose `productLabel` is present but is the empty string. -/
def itemEmptyLabel : Item :=
  { productLabel := some "", pricing := ⟨none, none⟩, url := none, images := none }

/-- A well-formed raw entry used to build concrete pages. -/
def itemDrill : Item :=
  { productLabel := some "Drill", pricing := ⟨some 5, some 3⟩,
    url := some "/p/1", images := some [some "img"] }

/-- The record `itemDrill` normalizes to. -/
def recDrill : ProductRecord :=
  { name := "Drill", current_price := some 3, original_price := some 5,
    link := "https://www.homedepot.com/p/1", image_url := "img" }

/-- A `PRODUCT_POD` layout holding one product. -/
def podLayout : Layout :=
  { isDict := true, type := some "PRODUCT_POD", products := some [itemDrill] }

/-- A page with data and a next-page control. -/
def pageWithNext : PageContent :=
  { script := some (.parsed ⟨some [podLayout]⟩), nextHref := some "https://www.homedepot.com/s/q?Nao=24" }

/-- A page with data and no next-page control. -/
def pageLast : PageContent :=
  { script := some (.parsed ⟨some [podLayout]⟩), nextHref := none }

/-- A site serving three pages of data. -/
def envThreePages : List Fetch :=
  [.loaded pageWithNext, .loaded pageWithNext, .loaded pageLast]

/-- Claim C2 (counterexample): an entry whose `productLabel` is the empty
string passes the `name != 'N/A'` test and is emitted as a record whose
name is the empty string — extraction does emit empty-named records. -/
theorem processItem_emits_empty_name :
    processItem itemEmptyLabel
      = .ok (some { name := "", current_price := none, original_price := none,
                    link := "https://www.homedepot.com#",
                    image_url := placeholderImage }) := by
  rfl

/-- Claim C2 (amended): extraction never appends a record whose name is the
sentinel `"N/A"`; every emitted record carries the entry's own
`productLabel`, so an entry with no `productLabel` key (which defaults to
`"N/A"`) is discarded rather than emitted or treated as an error. -/
theorem processItem_name_not_sentinel (it : Item) (rec : ProductRecord)
    (h : processItem it = .ok (some rec)) :
    rec.name ≠ "N/A" ∧ it.productLabel = some rec.name := by
  simp only [processItem] at h
  split at h
  · exact absurd h (by simp)
  · split at h
    · simp only [Except.ok.injEq, Option.some.injEq] at h
      subst h
      rename_i hn
      refine ⟨hn, ?_⟩
      cases hl : it.productLabel with
      | none => rw [hl] at hn; exact absurd rfl hn
      | some s => simp [hl]
    · exact absurd h (by simp)

/-- Witness for `processItem_name_not_sentinel` at a concrete entry. -/
theorem processItem_name_not_sentinel_witness :
    ({ name := "Drill", current_price := some 3, original_price := some 5,
       link := "https://www.homedepot.com/p/1", image_url := "img" } : ProductRecord).name ≠ "N/A" ∧
    ({ productLabel := some "Drill", pricing := ⟨some 5, some 3⟩,
       url := some "/p/1", images := some [some "img"] } : Item).productLabel
      = some ({ name := "Drill", current_price := some 3, original_price := some 5,
                link := "https://www.homedepot.com/p/1", image_url := "img" } : ProductRecord).name :=
  processItem_name_not_sentinel _ _ (by rfl)

/-- Claim C9: an entry whose `productLabel` is literally the string
`"N/A"` is discarded exactly as if it had no name (the discard test is
`name != 'N/A'`, not non-emptiness), provided image extraction itself
does not raise. -/
theorem sentinel_label_discarded (it : Item) (u : Option String)
    (h : it.productLabel = some "N/A") (hi : rawImageUrl it = .ok u) :
    processItem it = .ok none := by
  simp only [processItem, h, hi, Option.getD_some]
  rw [if_neg (by simp)]

/-- Witness for `sentinel_label_discarded`: a concrete entry genuinely
labelled `"N/A"` never reaches the results. -/
theorem sentinel_label_discarded_witness :
    processItem { productLabel := some "N/A", pricing := ⟨some 7, none⟩,
                  url := some "/p/na", images := some [some "img"] } = .ok none :=
  sentinel_label_discarded _ (some "img") rfl rfl

/-- Claim C10: a special price that is present but equal to `0` is falsy in
Python, so `current_price` falls back to the original price and
`original_price` is `none`, indistinguishable from an absent special
price. -/
theorem zero_special_price_falls_back (it : Item) (rec : ProductRecord)
    (hs : it.pricing.specialPrice = some 0)
    (h : processItem it = .ok (some rec)) :
    rec.current_price = it.pricing.originalPrice ∧ rec.original_price = none := by
  simp only [processItem, hs] at h
  split at h
  · exact absurd h (by simp)
  · split at h
    · simp only [Except.ok.injEq, Option.some.injEq] at h
      subst h
      simp [truthyPrice]
    · exact absurd h (by simp)

/-- Witness for `zero_special_price_falls_back` at a concrete entry with
original price 5 and special price 0. -/
theorem zero_special_price_falls_back_witness :
    ({ name := "A", current_price := some 5, original_price := none,
       link := "https://www.homedepot.com#",
       image_url := placeholderImage } : ProductRecord).current_price
      = ({ productLabel := some "A", pricing := ⟨some 5, some 0⟩,
           url := none, images := none } : Item).pricing.originalPrice ∧
    ({ name := "A", current_price := some 5, original_price := none,
       link := "https://www.homedepot.com#",
       image_url := placeholderImage } : ProductRecord).original_price = none :=
  zero_special_price_falls_back _ _ rfl (by rfl)

/-- Claim C6 (counterexample): with original price 5 and special price 0 —
both present and different — the emitted record's `current_price` is the
original 5 (not the special 0) and its `original_price` is `none` (not 5),
because the special price is tested for truthiness. -/
theorem price_pair_counterexample :
    processItem { productLabel := some "A", pricing := ⟨some 5, some 0⟩,
                  url := none, images := none }
      = .ok (some { name := "A", current_price := some 5, original_price := none,
                    link := "https://www.homedepot.com#",
                    image_url := placeholderImage }) ∧
    (5 : ℚ) ≠ 0 :=
  ⟨by rfl, by norm_num⟩

/-- Claim C6 (amended): when original and special prices are both present
and equal, the record has `current_price` that value and
`original_price = none` (no discount); when both are present, different,
and the special price is nonzero, `current_price` is the special price and
`original_price` the original. -/
theorem price_normalization (it : Item) (rec : ProductRecord) (p q : ℚ)
    (ho : it.pricing.originalPrice = some p) (hs : it.pricing.specialPrice = some q)
    (h : processItem it = .ok (some rec)) :
    (p = q → rec.current_price = some p ∧ rec.original_price = none) ∧
    (q ≠ 0 → p ≠ q → rec.current_price = some q ∧ rec.original_price = some p) := by
  simp only [processItem, ho, hs] at h
  split at h
  · exact absurd h (by simp)
  · split at h
    · simp only [Except.ok.injEq, Option.some.injEq] at h
      subst h
      constructor
      · intro hpq
        subst hpq
        constructor
        · by_cases hp : p = 0
          · subst hp; simp [truthyPrice]
          · simp [truthyPrice, hp]
        · simp [truthyPrice]
      · intro hq hpq
        constructor
        · simp [truthyPrice, hq]
        · simp [truthyPrice, hq, hpq]
    · exact absurd h (by simp)

/-- Witness for `price_normalization` at a concrete entry with original
price 5 and special price 3. -/
theorem price_normalization_witness :
    ((5 : ℚ) = 3 →
      ({ name := "Drill", current_price := some 3, original_price := some 5,
         link := "https://www.homedepot.com/p/1",
         image_url := "img" } : ProductRecord).current_price = some 5 ∧
      ({ name := "Drill", current_price := some 3, original_price := some 5,
         link := "https://www.homedepot.com/p/1",
         image_url := "img" } : ProductRecord).original_price = none) ∧
    ((3 : ℚ) ≠ 0 → (5 : ℚ) ≠ 3 →
      ({ name := "Drill", current_price := some 3, original_price := some 5,
         link := "https://www.homedepot.com/p/1",
         image_url := "img" } : ProductRecord).current_price = some 3 ∧
      ({ name := "Drill", current_price := some 3, original_price := some 5,
         link := "https://www.homedepot.com/p/1",
         image_url := "img" } : ProductRecord).original_price = some 5) :=
  price_normalization
    { productLabel := some "Drill", pricing := ⟨some 5, some 3⟩,
      url := some "/p/1", images := some [some "img"] } _ 5 3 rfl rfl (by rfl)

/-- Claim C8: when the raw image URL is absent or empty the record carries
the fixed placeholder, and every emitted record has a non-empty
`image_url`. -/
theorem image_url_placeholder (it : Item) (rec : ProductRecord) (u : Option String)
    (hi : rawImageUrl it = .ok u)
    (h : processItem it = .ok (some rec)) :
    rec.image_url ≠ "" ∧ ((u = none ∨ u = some "") → rec.image_url = placeholderImage) := by
  simp only [processItem, hi] at h
  split at h
  · simp only [Except.ok.injEq, Option.some.injEq] at h
    subst h
    constructor
    · by_cases ht : truthyStr u = true
      · simp only [if_pos ht]
        cases u with
        | none => simp [truthyStr] at ht
        | some s =>
          simp only [truthyStr, bne_iff_ne, ne_eq] at ht
          simpa using ht
      · simp only [if_neg ht]
        decide
    · intro hu
      have ht : truthyStr u = false := by
        rcases hu with h1 | h1 <;> subst h1 <;> rfl
      simp [ht]
  · exact absurd h (by simp)

/-- Witness for `image_url_placeholder`: the empty-label entry has no
image at all, and its emitted record carries the placeholder. -/
theorem image_url_placeholder_witness :
    ({ name := "", current_price := none, original_price := none,
       link := "https://www.homedepot.com#",
       image_url := placeholderImage } : ProductRecord).image_url ≠ "" ∧
    (((none : Option String) = none ∨ (none : Option String) = some "") →
      ({ name := "", current_price := none, original_price := none,
         link := "https://www.homedepot.com#",
         image_url := placeholderImage } : ProductRecord).image_url = placeholderImage) :=
  image_url_placeholder itemEmptyLabel _ none rfl (by rfl)

/-- Claim C3 (counterexample): the code has no `max_pages` check — on a
site with three pages the loop visits all three, so with a bound of
`max_pages = 2` the final `current_page` is 3, exceeding the bound instead
of stopping at it. -/
theorem no_page_bound_counterexample :
    (runLoop envThreePages 1 [] []).finalPage = 3 ∧
    ¬ (runLoop envThreePages 1 [] []).finalPage ≤ 2 :=
  ⟨rfl, by decide⟩

/-- Claim C3 (amended): `current_page` increases by exactly 1 on each
successful advance (data present, all entries processed, next-page control
found), with a single politeness delay recorded per advance; no page bound
is consulted. -/
theorem advance_increments_page (rest : List Fetch) (page : ℕ)
    (acc acc2 : List ProductRecord) (ds : List ℚ) (pc : PageContent)
    (j : ScriptJson) (u : String)
    (hs : pc.script = some (.parsed j))
    (hne : (pageProducts j).isEmpty = false)
    (hp : processProducts (pageProducts j) acc = (acc2, true))
    (hn : pc.nextHref = some u) :
    runLoop (.loaded pc :: rest) page acc ds = runLoop rest (page + 1) acc2 (ds ++ [1]) := by
  simp [runLoop, hs, hne, hp, advanceStep, hn]

/-- Witness for `advance_increments_page` on the first page of the
three-page site. -/
theorem advance_increments_page_witness :
    runLoop (.loaded pageWithNext :: [.loaded pageLast]) 1 [] []
      = runLoop [.loaded pageLast] (1 + 1) [recDrill] ([] ++ [1]) :=
  advance_increments_page [.loaded pageLast] 1 [] [recDrill] [] pageWithNext
    ⟨some [podLayout]⟩ "https://www.homedepot.com/s/q?Nao=24" rfl rfl (by rfl) rfl

/-- Claim C4: whenever fetching a page ends in a wait-timeout or a
transport/navigation failure, the loop stops and the run yields exactly
the records accumulated so far — the exception never escapes (the run
still produces a `RunResult`, via the `except`/`finally` of lines
117–140). -/
theorem fetch_failure_returns_partial (f : Fetch) (rest : List Fetch)
    (page : ℕ) (acc : List ProductRecord) (ds : List ℚ)
    (h : f = .timeout ∨ f = .navError) :
    (runLoop (f :: rest) page acc ds).records = acc ∧
    ((runLoop (f :: rest) page acc ds).stop = .timeout ∨
     (runLoop (f :: rest) page acc ds).stop = .navError) := by
  rcases h with h | h <;> subst h
  · exact ⟨rfl, Or.inl rfl⟩
  · exact ⟨rfl, Or.inr rfl⟩

/-- Witness for `fetch_failure_returns_partial`: a timeout on the second
page returns the first page's records. -/
theorem fetch_failure_returns_partial_witness :
    (runLoop (Fetch.timeout :: []) 2 [recDrill] [1]).records = [recDrill] ∧
    ((runLoop (Fetch.timeout :: []) 2 [recDrill] [1]).stop = .timeout ∨
     (runLoop (Fetch.timeout :: []) 2 [recDrill] [1]).stop = .navError) :=
  fetch_failure_returns_partial .timeout [] 2 [recDrill] [1] (Or.inl rfl)

/-- Claim C5 (counterexample): a page whose script tag holds malformed
JSON does not end the loop on the no-more-data path: `json.loads` raises
past the inner handler into the generic `except Exception`, an error
outcome. -/
theorem parse_failure_counterexample :
    (runLoop [Fetch.loaded ⟨some .badJson, some "u"⟩] 1 [] []).stop = .parseError ∧
    StopReason.parseError.isDone = false ∧
    StopReason.parseError.isError = true :=
  ⟨rfl, rfl, rfl⟩

/-- Claim C5 (amended): a parsed page whose expected keys are missing
(empty collected product list) terminates the loop as no-more-data with
the accumulated records, while malformed JSON instead reaches the generic
exception handler — an error outcome — though the accumulated records are
still returned. -/
theorem parse_failure_behavior (rest : List Fetch) (page : ℕ)
    (acc : List ProductRecord) (ds : List ℚ) (nh : Option String)
    (j : ScriptJson) (hk : pageProducts j = []) :
    runLoop (.loaded ⟨some (.parsed j), nh⟩ :: rest) page acc ds = ⟨acc, page, ds, .noProducts⟩ ∧
    runLoop (.loaded ⟨some .badJson, nh⟩ :: rest) page acc ds = ⟨acc, page, ds, .parseError⟩ ∧
    StopReason.noProducts.isDone = true ∧
    StopReason.parseError.isError = true := by
  refine ⟨?_, rfl, rfl, rfl⟩
  simp [runLoop, hk]

/-- Witness for `parse_failure_behavior`: a page whose
`props.pageProps.search.contentLayouts` path is missing. -/
theorem parse_failure_behavior_witness :
    runLoop [Fetch.loaded ⟨some (.parsed ⟨none⟩), none⟩] 1 [] [] = ⟨[], 1, [], .noProducts⟩ ∧
    runLoop [Fetch.loaded ⟨some .badJson, none⟩] 1 [] [] = ⟨[], 1, [], .parseError⟩ ∧
    StopReason.noProducts.isDone = true ∧
    StopReason.parseError.isError = true :=
  parse_failure_behavior [] 1 [] [] none ⟨none⟩ rfl

/-- Helper: the advancing step always sleeps exactly 1 time unit
(`time.sleep(1)`, line 128). -/
theorem advanceStep_delay_eq_one (pc : PageContent) (href : String) (d : ℚ)
    (h : advanceStep pc = .navigate href d) : d = 1 := by
  unfold advanceStep at h
  cases hx : pc.nextHref with
  | none => rw [hx] at h; exact absurd h (by simp)
  | some u =>
    rw [hx] at h
    simp only [AdvanceOutcome.navigate.injEq] at h
    exact h.2.symm

/-- Claim C7 (counterexample): the politeness delay is the fixed constant
1, not a draw from a ~1.5–3.5 interval: on the three-page site both
recorded delays are 1, and 1 is below the interval's lower end. -/
theorem politeness_delay_counterexample :
    (runLoop envThreePages 1 [] []).delays = [1, 1] ∧ ¬ ((3 / 2 : ℚ) ≤ 1) :=
  ⟨by rfl, by norm_num⟩

/-- Claim C7 (amended): every politeness delay the loop applies on a
successful advance equals the fixed constant 1 time unit. -/
theorem politeness_delay_fixed (env : List Fetch) (page : ℕ)
    (acc : List ProductRecord) (ds : List ℚ)
    (hds : ∀ d ∈ ds, d = 1) :
    ∀ d ∈ (runLoop env page acc ds).delays, d = 1 := by
  induction env generalizing page acc ds with
  | nil => exact hds
  | cons f rest ih =>
    cases f with
    | timeout => exact hds
    | navError => exact hds
    | loaded pc =>
      simp only [runLoop]
      split
      · exact hds
      · exact hds
      · split
        · exact hds
        · split
          · exact hds
          · split
            · exact hds
            · rename_i hadv
              refine ih (page + 1) _ _ ?_
              intro d hd
              rcases List.mem_append.mp hd with hd | hd
              · exact hds d hd
              · rw [List.mem_singleton.mp hd]
                exact advanceStep_delay_eq_one pc _ _ hadv ▸ rfl

/-- Witness for `politeness_delay_fixed` on the three-page site, whose
run records the delay list `[1, 1]`. -/
theorem politeness_delay_fixed_witness : (1 : ℚ) = 1 :=
  politeness_delay_fixed envThreePages 1 [] [] (by simp) 1
    (by rw [show (runLoop envThreePages 1 [] []).delays = [1, 1] from rfl]; simp)

/-- Helper: the two halves of the deduplication split are, together, a
permutation of the scanned rows. -/
theorem dedupAux_perm (l : List (ℕ × ProductRecord)) (seen : List String) :
    ((dedupAux l seen).1 ++ (dedupAux l seen).2).Perm l := by
  induction l generalizing seen with
  | nil => exact List.Perm.refl _
  | cons r rest ih =>
    by_cases hc : r.2.name ∈ seen
    · simp only [dedupAux, if_pos hc]
      exact List.perm_middle.trans ((ih (r.2.name :: seen)).cons r)
    · simp only [dedupAux, if_neg hc, List.cons_append]
      exact (ih (r.2.name :: seen)).cons r

/-- Helper: the unique half has pairwise-distinct names, none of which was
already seen. -/
theorem dedupAux_unique_names (l : List (ℕ × ProductRecord)) (seen : List String) :
    ((dedupAux l seen).1.map (fun r => r.2.name)).Nodup ∧
    ∀ r ∈ (dedupAux l seen).1, r.2.name ∉ seen := by
  induction l generalizing seen with
  | nil => exact ⟨List.nodup_nil, by simp [dedupAux]⟩
  | cons r rest ih =>
    by_cases hc : r.2.name ∈ seen
    · simp only [dedupAux, if_pos hc]
      obtain ⟨h1, h2⟩ := ih (r.2.name :: seen)
      exact ⟨h1, fun s hs => fun hmem => h2 s hs (List.mem_cons_of_mem _ hmem)⟩
    · simp only [dedupAux, if_neg hc, List.map_cons]
      obtain ⟨h1, h2⟩ := ih (r.2.name :: seen)
      refine ⟨List.nodup_cons.mpr ⟨?_, h1⟩, ?_⟩
      · intro hmem
        obtain ⟨s, hs, hname⟩ := List.mem_map.mp hmem
        exact h2 s hs (hname ▸ List.mem_cons_self _ _)
      · intro s hs
        rcases List.mem_cons.mp hs with h | h
        · subst h; exact hc
        · exact fun hmem => h2 s h (List.mem_cons_of_mem _ hmem)

/-- Claim C1: the deduplication of lines 158–161 is a strict partition of
the accumulated rows: unique and duplicate together are exactly the
accumulated records (as indexed rows), they share no row, and the unique
half contains no two records with equal names. -/
theorem dedup_strict_partition (l : List ProductRecord) :
    ((dedupPartition l).1 ++ (dedupPartition l).2).Perm l.enum ∧
    (∀ r ∈ (dedupPartition l).1, r ∉ (dedupPartition l).2) ∧
    ((dedupPartition l).1.map (fun r => r.2.name)).Nodup := by
  refine ⟨dedupAux_perm _ _, ?_, (dedupAux_unique_names _ _).1⟩
  have hnd : l.enum.Nodup := by
    have hm : (l.enum.map Prod.fst).Nodup := by
      rw [List.enum_map_fst]
      exact List.nodup_range _
    exact hm.of_map _
  have hnodup : ((dedupPartition l).1 ++ (dedupPartition l).2).Nodup :=
    ((dedupAux_perm l.enum []).nodup_iff).mpr hnd
  exact fun r hr => List.disjoint_of_nodup_append hnodup hr
